import Mathlib

/-!
Verification of the ChromaChat-phone context-budgeting and persistence core.

The definitions below are a shallow embedding of the TypeScript sources:
  - src/services/tokenEstimator.ts  (estimateTextTokens)
  - src/services/chatService.ts     (resolveTokenLimit, buildSystemPromptContent,
                                     buildChatPayload, createContact, deleteContact,
                                     saveMessage, deleteMessageById, updateMessageContent)
  - src/features/chat/ChatApp.tsx   (splitAssistantResponse, the assistant-reply
                                     persistence loop of requestAssistantReply)
  - src/stores/settingsStore.ts     (defaultSystemPrompt)

JavaScript strings are modelled as Lean strings; the few regular expressions
used by the sources are translated into explicit character-list scans with the
same left-to-right, leftmost-greedy semantics.  JavaScript numbers are modelled
as an inductive JsNum (NaN, the two infinities, and finite values as rationals);
the float arithmetic inside the token estimator is idealised as exact rational
arithmetic.  The Dexie database is modelled as an explicit record of tables and
each service mutation as a list of committed write actions (a transaction
commits as one action), so that the sequence of observable committed states is
itself a definable object.
-/

namespace ChromaChat

/-- The character class of the JavaScript regex token for whitespace, which is
also the set of characters removed by String.prototype.trim. -/
def isJsWhitespace (c : Char) : Bool :=
  let n := c.toNat
  n == 9 || n == 10 || n == 11 || n == 12 || n == 13 || n == 32 ||
  n == 0xA0 || n == 0x1680 || (0x2000 ≤ n && n ≤ 0x200A) ||
  n == 0x2028 || n == 0x2029 || n == 0x202F || n == 0x205F ||
  n == 0x3000 || n == 0xFEFF

/-- Membership in the character range 0x00-0x7F, as used by the regex
character class on line 21 of tokenEstimator.ts. -/
def isAsciiChar (c : Char) : Bool := c.toNat ≤ 0x7F

/-- The punctuation character class of tokenEstimator.ts line 30. -/
def isEstimatorPunct (c : Char) : Bool :=
  let n := c.toNat
  (0x2000 ≤ n && n ≤ 0x206F) || (0x2E00 ≤ n && n ≤ 0x2E7F) ||
  (0x3000 ≤ n && n ≤ 0x303F) ||
  c == ',' || c == '、' || c == '。' || c == '．' || c == '，' ||
  c == '？' || c == '！' || c == '｡' || c == '!' || c == '?' ||
  c == '.' || c == ';' || c == ':' || c == '(' || c == ')' ||
  c == '/' || c == '[' || c == ']' || c == '\x7b' || c == '\x7d' ||
  c == '"' || c == '\x27' || c == '“' || c == '”' || c == '‘' || c == '’'

/-- JavaScript String.prototype.trim on a character list: drop whitespace from
both ends. -/
def jsTrimChars (l : List Char) : List Char :=
  ((l.dropWhile isJsWhitespace).reverse.dropWhile isJsWhitespace).reverse

/-- JavaScript String.prototype.trim lifted to strings. -/
def jsTrim (s : String) : String := String.mk (jsTrimChars s.data)

/-- The global replacement of CR LF pairs or lone CR by LF performed on line 16
of tokenEstimator.ts, scanning left to right. -/
def normalizeNewlinesChars : List Char → List Char
  | [] => []
  | [c] => if c = '\r' then ['\n'] else [c]
  | c :: c2 :: rest =>
    if c = '\r' then
      if c2 = '\n' then '\n' :: normalizeNewlinesChars rest
      else '\n' :: normalizeNewlinesChars (c2 :: rest)
    else c :: normalizeNewlinesChars (c2 :: rest)

/-- The global replacement of CR LF pairs by LF performed on line 46 of
ChatApp.tsx (lone CR is left untouched there). -/
def replaceCRLFChars : List Char → List Char
  | [] => []
  | [c] => [c]
  | c :: c2 :: rest =>
    if c = '\r' ∧ c2 = '\n' then '\n' :: replaceCRLFChars rest
    else c :: replaceCRLFChars (c2 :: rest)

/-- Number of maximal runs of whitespace characters: the number of matches of
the global whitespace-run regex of tokenEstimator.ts line 27. -/
def countWhitespaceRunsAux : Bool → List Char → Nat
  | _, [] => 0
  | inRun, c :: rest =>
    if isJsWhitespace c then
      (if inRun then 0 else 1) + countWhitespaceRunsAux true rest
    else countWhitespaceRunsAux false rest

/-- Number of maximal whitespace runs in a character list. -/
def countWhitespaceRuns (l : List Char) : Nat := countWhitespaceRunsAux false l

/-- Length of a character list in UTF-16 code units, which is what the length
property of a JavaScript string reports. -/
def utf16Length (l : List Char) : Nat :=
  (l.map (fun c => if c.toNat < 0x10000 then 1 else 2)).sum

/-- Constant from tokenEstimator.ts line 1. -/
def AVERAGE_ASCII_CHARS_PER_TOKEN : ℚ := 4
/-- Constant from tokenEstimator.ts line 2. -/
def NON_ASCII_TOKEN_WEIGHT : ℚ := 1
/-- Constant from tokenEstimator.ts line 3. -/
def WHITESPACE_TOKEN_WEIGHT : ℚ := 3 / 10
/-- Constant from tokenEstimator.ts line 4. -/
def PUNCTUATION_TOKEN_WEIGHT : ℚ := 1 / 5

/-- The token estimator of tokenEstimator.ts lines 11-40.  The double
arithmetic of the source is idealised as exact rational arithmetic. -/
def estimateTextTokens (text : String) : Nat :=
  if text.data = [] then 0
  else
    let normalized := jsTrimChars (normalizeNewlinesChars text.data)
    if normalized = [] then 0
    else
      let asciiOnly := normalized.filter isAsciiChar
      let asciiChars : ℚ := asciiOnly.length
      let nonAsciiChars : ℚ := (utf16Length normalized : ℚ) - asciiChars
      let asciiTokenEstimate := asciiChars / AVERAGE_ASCII_CHARS_PER_TOKEN
      let nonAsciiTokenEstimate := nonAsciiChars * NON_ASCII_TOKEN_WEIGHT
      let whitespaceCount : ℚ := countWhitespaceRuns normalized
      let punctuationCount : ℚ := (normalized.filter isEstimatorPunct).length
      let combinedEstimate :=
        asciiTokenEstimate + nonAsciiTokenEstimate +
        whitespaceCount * WHITESPACE_TOKEN_WEIGHT +
        punctuationCount * PUNCTUATION_TOKEN_WEIGHT
      (max 1 ⌈combinedEstimate⌉).toNat

/-- A JavaScript number: NaN, the infinities, or a finite value (idealised as a
rational). -/
inductive JsNum where
  | nan : JsNum
  | posInf : JsNum
  | negInf : JsNum
  | finite (q : ℚ) : JsNum
deriving DecidableEq

/-- The nullish-coalescing operator of JavaScript on optional values. -/
def jsNullish {α : Type} (a b : Option α) : Option α :=
  match a with
  | some v => some v
  | none => b

/-- Constant from chatService.ts line 11. -/
def DEFAULT_TOKEN_LIMIT : ℤ := 16000
/-- Constant from chatService.ts line 12. -/
def MAX_TOKEN_LIMIT : ℤ := 128000
/-- Constant from chatService.ts line 13. -/
def TOKEN_LIMIT_STEP : ℤ := 500
/-- Constant from chatService.ts line 14. -/
def MIN_TOKEN_LIMIT : ℤ := 500
/-- Constant from chatService.ts line 15. -/
def MESSAGE_TOKEN_OVERHEAD : ℤ := 4
/-- Constant from chatService.ts line 16. -/
def SYSTEM_TOKEN_OVERHEAD : ℤ := 12

/-- The limit resolution of chatService.ts lines 22-31: a missing value, NaN or
an infinity yields the default; a finite number is floored and clamped to the
interval from MIN_TOKEN_LIMIT to MAX_TOKEN_LIMIT. -/
def resolveTokenLimit : Option JsNum → ℤ
  | none => DEFAULT_TOKEN_LIMIT
  | some JsNum.nan => DEFAULT_TOKEN_LIMIT
  | some JsNum.posInf => DEFAULT_TOKEN_LIMIT
  | some JsNum.negInf => DEFAULT_TOKEN_LIMIT
  | some (JsNum.finite q) => min MAX_TOKEN_LIMIT (max MIN_TOKEN_LIMIT ⌊q⌋)

/-- Message roles, from db.ts. -/
inductive MessageRole where
  | system : MessageRole
  | user : MessageRole
  | assistant : MessageRole
deriving DecidableEq

/-- The Contact record of db.ts. -/
structure Contact where
  id : String
  name : String
  avatarColor : String
  avatarIcon : Option String
  avatarUrl : Option String
  prompt : String
  worldBook : Option String
  longMemory : Option String
  selfName : Option String
  selfAvatarColor : Option String
  selfAvatarIcon : Option String
  selfAvatarUrl : Option String
  selfPrompt : Option String
  tokenLimit : Option JsNum
  autoReplyEnabled : Option Bool
  autoReplyDelayMinutes : Option JsNum
  createdAt : ℤ
deriving DecidableEq

/-- The Thread record of db.ts. -/
structure Thread where
  id : String
  contactId : String
  title : String
  updatedAt : ℤ
deriving DecidableEq

/-- The Message record of db.ts; the primary key is auto-assigned, hence
optional on an unsaved record. -/
structure Message where
  id : Option Nat
  threadId : String
  role : MessageRole
  content : String
  createdAt : ℤ
deriving DecidableEq

/-- One entry of the list sent to the LLM client (llmClient.ts). -/
structure ChatMessage where
  role : MessageRole
  content : String
deriving DecidableEq

/-- The slice of the settings store read by the prompt builder
(chatService.ts line 9). -/
structure PromptSettingsSnapshot where
  systemPrompt : String
  userName : String
  userPrompt : String
  model : String
deriving DecidableEq

/-- Helper from chatService.ts line 20: trim an optional string, empty when
absent. -/
def sanitizeText : Option String → String
  | none => ""
  | some s => jsTrim s

/-- JavaScript logical-or on strings: the left operand unless it is empty
(falsy). -/
def strOr (a b : String) : String := if a = "" then b else a

/-- The built-in default system prompt of settingsStore.ts lines 5-7. -/
def defaultSystemPrompt : String :=
  "你是一位真实、有温度的手机助理。\n与用户对话时请根据“角色信息”调整语言风格，保持共情和好奇。\n当信息不足时先询问澄清；当用户需要帮助时给出清晰的步骤。每轮对话生成1至7句话。"

/-- The system-message builder of chatService.ts lines 33-68. -/
def buildSystemPromptContent (contact : Contact) (settings : PromptSettingsSnapshot) : String :=
  let baseSystemPrompt := strOr (sanitizeText (some settings.systemPrompt)) defaultSystemPrompt
  let rolePrompt := strOr (sanitizeText (some contact.prompt)) "未提供"
  let worldBook := strOr (sanitizeText contact.worldBook) "未提供"
  let longMemory := sanitizeText contact.longMemory
  let effectiveUserName :=
    strOr (sanitizeText contact.selfName)
      (strOr (sanitizeText (some settings.userName)) "用户")
  let effectiveUserPrompt :=
    strOr (sanitizeText contact.selfPrompt)
      (strOr (sanitizeText (some settings.userPrompt)) "未提供")
  let sections :=
    [baseSystemPrompt, "---", "角色信息：",
     "名称：" ++ contact.name,
     "设定：" ++ rolePrompt,
     "世界观：" ++ worldBook]
  let sections :=
    sections ++
      (if longMemory ≠ "" then ["", "长期记忆（结合下方信息时优先参考）：", longMemory] else [])
  let sections :=
    sections ++ ["", "用户信息：", "名称：" ++ effectiveUserName, "设定：" ++ effectiveUserPrompt]
  String.intercalate "\n" sections

/-- The per-message cost computed on line 97 of chatService.ts: content
estimate plus the per-message envelope overhead. -/
def messageCost (message : Message) : ℤ :=
  (estimateTextTokens message.content : ℤ) + MESSAGE_TOKEN_OVERHEAD

/-- The system token cost computed on line 91 of chatService.ts. -/
def systemTokensOf (contact : Contact) (settings : PromptSettingsSnapshot) : ℤ :=
  (estimateTextTokens (buildSystemPromptContent contact settings) : ℤ) + SYSTEM_TOKEN_OVERHEAD

/-- The history-selection loop of chatService.ts lines 95-110, expressed as a
recursion over the reversed history (the source walks indices from the last
one downward).  The Boolean records whether any message has been selected yet;
the returned pair is the selection (most recent first) and the running token
total. -/
def selectLoop (limit : ℤ) : ℤ → Bool → List Message → List Message × ℤ
  | totalTokens, _, [] => ([], totalTokens)
  | totalTokens, anySelected, message :: rest =>
    let nextTotal := totalTokens + messageCost message
    if nextTotal > limit then
      if anySelected then ([], totalTokens) else ([message], nextTotal)
    else
      let r := selectLoop limit nextTotal true rest
      (message :: r.1, r.2)

/-- The argument object of buildChatPayload (chatService.ts lines 76-86). -/
structure BuildChatPayloadArgs where
  contact : Contact
  settings : PromptSettingsSnapshot
  history : List Message
  tokenLimit : Option JsNum

/-- The result object of buildChatPayload (chatService.ts lines 70-74). -/
structure ChatPayload where
  payloadMessages : List ChatMessage
  tokenCount : ℤ
  tokenLimit : ℤ
deriving DecidableEq

/-- The context assembler of chatService.ts lines 76-130. -/
def buildChatPayload (args : BuildChatPayloadArgs) : ChatPayload :=
  let limit := resolveTokenLimit (jsNullish args.tokenLimit args.contact.tokenLimit)
  let systemContent := buildSystemPromptContent args.contact args.settings
  let systemTokens := systemTokensOf args.contact args.settings
  let r := selectLoop limit systemTokens false args.history.reverse
  let selectedMessages := r.1.reverse
  { payloadMessages :=
      { role := MessageRole.system, content := systemContent } ::
        selectedMessages.map (fun message => { role := message.role, content := message.content }),
    tokenCount := r.2,
    tokenLimit := limit }

/-- Sentence-terminal punctuation of the sentence regex on line 51 of
ChatApp.tsx. -/
def isSentenceTerminator (c : Char) : Bool :=
  c == '。' || c == '！' || c == '？' || c == '!' || c == '?' || c == '；' || c == ';'

/-- Splitting on maximal runs of line feeds: the split on line 53 of
ChatApp.tsx.  As in JavaScript, a leading or trailing separator contributes an
empty part. -/
def splitNewlineRuns : List Char → List (List Char)
  | [] => [[]]
  | [c] => if c = '\n' then [[], []] else [[c]]
  | c :: c2 :: rest =>
    let r := splitNewlineRuns (c2 :: rest)
    if c = '\n' then
      if c2 = '\n' then r else [] :: r
    else
      match r with
      | [] => [[c]]
      | p :: ps => (c :: p) :: ps

/-- Global matching of the sentence regex of ChatApp.tsx line 51 (one or more
non-terminators followed by one optional terminator), scanning left to right
with the accumulated pending sentence body held in reverse. -/
def sentenceMatchesAux : List Char → List Char → List (List Char)
  | bodyRev, [] => if bodyRev = [] then [] else [bodyRev.reverse]
  | bodyRev, c :: rest =>
    if isSentenceTerminator c then
      if bodyRev = [] then sentenceMatchesAux [] rest
      else (bodyRev.reverse ++ [c]) :: sentenceMatchesAux [] rest
    else sentenceMatchesAux (c :: bodyRev) rest

/-- All matches of the sentence regex in a paragraph; the empty list plays the
role of the null result of String.prototype.match. -/
def sentenceMatches (l : List Char) : List (List Char) := sentenceMatchesAux [] l

/-- The assistant-reply splitter of ChatApp.tsx lines 45-70. -/
def splitAssistantResponse (content : String) : List String :=
  let normalized := jsTrimChars (replaceCRLFChars content.data)
  if normalized.length = 0 then []
  else
    let paragraphs :=
      ((splitNewlineRuns normalized).map jsTrimChars).filter (fun p => p ≠ [])
    let sentences :=
      paragraphs.flatMap (fun paragraph =>
        let ms := sentenceMatches paragraph
        if ms ≠ [] then
          (ms.map jsTrimChars).filter (fun t => t.length > 0)
        else if paragraph.length > 0 then [paragraph]
        else [])
    sentences.map String.mk

/-- The persistence loop of requestAssistantReply, ChatApp.tsx lines 1345-1360:
fall back to the whole trimmed response when the splitter yields nothing, then
persist each non-empty trimmed part in order.  The returned list is the
sequence of assistant message contents persisted. -/
def persistAssistantSegments (response : String) : List String :=
  let segments := splitAssistantResponse response
  let parts := if segments.length > 0 then segments else [jsTrim response]
  (parts.map jsTrim).filter (fun t => t.length ≠ 0)

/-- The Dexie database state: one list per table of the core schema. -/
structure DB where
  contacts : List Contact
  threads : List Thread
  messages : List Message
deriving DecidableEq

/-- The next auto-increment primary key for the messages table. -/
def nextMessageId (s : DB) : Nat :=
  (s.messages.filterMap Message.id).foldr max 0 + 1

/-- The primitive table writes issued by the service layer. -/
inductive DbOp where
  | addContact (c : Contact) : DbOp
  | addThread (t : Thread) : DbOp
  | addMessage (m : Message) : DbOp
  | deleteMessagesByThreadIds (ids : List String) : DbOp
  | deleteThreadsByContactId (cid : String) : DbOp
  | deleteContactById (cid : String) : DbOp
  | deleteMessageById (mid : Nat) : DbOp
  | updateThreadUpdatedAt (tid : String) (v : ℤ) : DbOp
  | updateMessageContentOp (mid : Nat) (content : String) : DbOp

/-- One committed unit: either a single write or an explicit transaction whose
writes commit together. -/
inductive DbAction where
  | single (o : DbOp) : DbAction
  | tx (ops : List DbOp) : DbAction

/-- Effect of one primitive write on the database state. -/
def applyOp (s : DB) : DbOp → DB
  | DbOp.addContact c => { s with contacts := s.contacts ++ [c] }
  | DbOp.addThread t => { s with threads := s.threads ++ [t] }
  | DbOp.addMessage m =>
      { s with messages := s.messages ++ [{ m with id := some (nextMessageId s) }] }
  | DbOp.deleteMessagesByThreadIds ids =>
      { s with messages := s.messages.filter (fun m => !decide (m.threadId ∈ ids)) }
  | DbOp.deleteThreadsByContactId cid =>
      { s with threads := s.threads.filter (fun t => !decide (t.contactId = cid)) }
  | DbOp.deleteContactById cid =>
      { s with contacts := s.contacts.filter (fun c => !decide (c.id = cid)) }
  | DbOp.deleteMessageById mid =>
      { s with messages := s.messages.filter (fun m => !decide (m.id = some mid)) }
  | DbOp.updateThreadUpdatedAt tid v =>
      { s with threads :=
          s.threads.map (fun t => if t.id = tid then { t with updatedAt := v } else t) }
  | DbOp.updateMessageContentOp mid content =>
      { s with messages :=
          s.messages.map (fun m => if m.id = some mid then { m with content := content } else m) }

/-- Effect of one committed unit. -/
def applyAction (s : DB) : DbAction → DB
  | DbAction.single o => applyOp s o
  | DbAction.tx ops => ops.foldl applyOp s

/-- Run a list of committed units. -/
def applyActions (s : DB) (acts : List DbAction) : DB := acts.foldl applyAction s

/-- The sequence of committed states observable while a list of committed
units runs, starting state included. -/
def commitStates (s : DB) : List DbAction → List DB
  | [] => [s]
  | a :: rest => s :: commitStates (applyAction s a) rest

/-- Look up a thread by primary key, as db.threads.get does. -/
def findThread (s : DB) (tid : String) : Option Thread :=
  s.threads.find? (fun t => decide (t.id = tid))

/-- Look up a message by primary key, as db.messages.get does. -/
def findMessage (s : DB) (mid : Nat) : Option Message :=
  s.messages.find? (fun m => decide (m.id = some mid))

/-- Truthiness of an optional string in JavaScript: present and non-empty. -/
def optStrTruthy : Option String → Bool
  | none => false
  | some s => s ≠ ""

/-- The Contact record built by createContact, chatService.ts lines 147-159.
The generated id, the randomly drawn icon name and the clock reading are taken
as parameters. -/
def createContactRecord (name avatarColor : String) (avatarIcon avatarUrl : Option String)
    (prompt : String) (worldBook : Option String) (id1 randomIcon : String) (now1 : ℤ) :
    Contact :=
  let iconName : Option String :=
    if optStrTruthy avatarUrl then none else some (avatarIcon.getD randomIcon)
  { id := id1, name := name, avatarColor := avatarColor, avatarIcon := iconName,
    avatarUrl := avatarUrl, prompt := prompt, worldBook := some (worldBook.getD ""),
    longMemory := none, selfName := none, selfAvatarColor := none, selfAvatarIcon := none,
    selfAvatarUrl := none, selfPrompt := none,
    tokenLimit := some (JsNum.finite (DEFAULT_TOKEN_LIMIT : ℚ)),
    autoReplyEnabled := none, autoReplyDelayMinutes := none, createdAt := now1 }

/-- The Thread record built by createContact, chatService.ts lines 163-168. -/
def createContactThread (contact : Contact) (id2 : String) (now2 : ℤ) : Thread :=
  { id := id2, contactId := contact.id, title := contact.name ++ " 的对话", updatedAt := now2 }

/-- The write script of createContact, chatService.ts lines 132-173: two adds
issued as separate awaited calls with no enclosing transaction. -/
def createContactActions (contact : Contact) (thread : Thread) : List DbAction :=
  [DbAction.single (DbOp.addContact contact), DbAction.single (DbOp.addThread thread)]

/-- The ids of the threads of a contact, as read by the query on lines 261-262
of chatService.ts before the delete transaction starts. -/
def contactThreadIds (s : DB) (cid : String) : List String :=
  (s.threads.filter (fun t => decide (t.contactId = cid))).map Thread.id

/-- The write script of deleteContact, chatService.ts lines 260-268: one
transaction deleting the messages of the pre-read thread ids, the contact's
threads, and the contact. -/
def deleteContactActions (s : DB) (cid : String) : List DbAction :=
  [DbAction.tx
    [DbOp.deleteMessagesByThreadIds (contactThreadIds s cid),
     DbOp.deleteThreadsByContactId cid,
     DbOp.deleteContactById cid]]

/-- The write script of saveMessage, chatService.ts lines 270-273: two awaited
calls with no enclosing transaction; the thread timestamp is set to the
message's creation time. -/
def saveMessageActions (message : Message) : List DbAction :=
  [DbAction.single (DbOp.addMessage message),
   DbAction.single (DbOp.updateThreadUpdatedAt message.threadId message.createdAt)]

/-- The write script of deleteMessageById, chatService.ts lines 412-421: after
a pre-read of the message (early return when absent), one transaction deleting
it and bumping its thread's timestamp to the current clock reading. -/
def deleteMessageByIdActions (s : DB) (messageId : Nat) (now : ℤ) : List DbAction :=
  match findMessage s messageId with
  | none => []
  | some message =>
    [DbAction.tx
      [DbOp.deleteMessageById messageId,
       DbOp.updateThreadUpdatedAt message.threadId now]]

/-- The write script of updateMessageContent, chatService.ts lines 423-438:
after a pre-read of the message (early return when absent), one transaction
rewriting its content and bumping its thread's timestamp. -/
def updateMessageContentActions (s : DB) (messageId : Nat) (content : String) (now : ℤ) :
    List DbAction :=
  match findMessage s messageId with
  | none => []
  | some message =>
    [DbAction.tx
      [DbOp.updateMessageContentOp messageId content,
       DbOp.updateThreadUpdatedAt message.threadId now]]

/-- Numerator of the estimator's combined estimate over the fixed common
denominator 20 of the weights 1/4, 1, 3/10 and 1/5; used to evaluate
estimateTextTokens by integer arithmetic (see the equivalence lemma). -/
def estimateScaled (normalized : List Char) : Nat :=
  5 * (normalized.filter isAsciiChar).length +
    20 * (utf16Length normalized - (normalized.filter isAsciiChar).length) +
    6 * countWhitespaceRuns normalized +
    4 * (normalized.filter isEstimatorPunct).length

/-- An empty database, used as a concrete starting state. -/
def db0 : DB := { contacts := [], threads := [], messages := [] }

/-- A concrete contact used to instantiate the general theorems. -/
def contactW : Contact := { id := "c1", name := "A", avatarColor := "#fff", avatarIcon := none, avatarUrl := none, prompt := "x", worldBook := some "x", longMemory := none, selfName := none, selfAvatarColor := none, selfAvatarIcon := none, selfAvatarUrl := none, selfPrompt := none, tokenLimit := none, autoReplyEnabled := none, autoReplyDelayMinutes := none, createdAt := 0 }

/-- A concrete settings snapshot used to instantiate the general theorems. -/
def settingsW : PromptSettingsSnapshot := { systemPrompt := "x", userName := "u", userPrompt := "x", model := "m" }

/-- A concrete short message. -/
def msgSmall : Message := { id := some 1, threadId := "t1", role := MessageRole.user, content := "hello", createdAt := 5 }

/-- A concrete message whose cost alone exceeds the minimum token limit. -/
def msgBig : Message := { id := some 2, threadId := "t1", role := MessageRole.user, content := String.mk (List.replicate 520 '啊'), createdAt := 6 }

/-- Concrete buildChatPayload arguments: a single oversized message under the
minimum limit. -/
def argsW1 : BuildChatPayloadArgs := { contact := contactW, settings := settingsW, history := [msgBig], tokenLimit := some (JsNum.finite 0) }

/-- The contact record of the concrete createContact run used as the
atomicity counterexample. -/
def contactCex : Contact := createContactRecord "Aria" "#38bdf8" none none "cheerful" none "c1" "Sparkles" 0

/-- The thread record of the concrete createContact run used as the atomicity
counterexample. -/
def threadCex : Thread := createContactThread contactCex "t1" 0

/-- The committed state between the two inserts of the concrete createContact
run: the contact is persisted, its thread is not. -/
def sMidCex : DB := { contacts := [contactCex], threads := [], messages := [] }

/-- A concrete populated database used to instantiate the cascading-delete
theorem. -/
def dbC5 : DB := { contacts := [contactCex], threads := [threadCex], messages := [msgSmall] }

/-- A concrete thread used to instantiate the timestamp-bump theorem. -/
def threadW : Thread := { id := "t1", contactId := "c1", title := "x", updatedAt := 4 }

/-- A concrete database holding threadW and msgSmall. -/
def dbW : DB := { contacts := [], threads := [threadW], messages := [msgSmall] }

theorem jsTrimChars_eq_nil_iff (l : List Char) :
    jsTrimChars l = [] ↔ ∀ c ∈ l, isJsWhitespace c := by
  unfold jsTrimChars
  rw [List.reverse_eq_nil_iff, List.dropWhile_eq_nil_iff]
  constructor
  · intro h c hc
    rcases List.mem_append.mp
        ((List.takeWhile_append_dropWhile (p := isJsWhitespace) (l := l)) ▸ hc) with h1 | h2
    · exact List.mem_takeWhile_imp h1
    · exact h c (List.mem_reverse.mpr h2)
  · intro h c hc
    exact h c ((List.dropWhile_sublist _).subset (List.mem_reverse.mp hc))

theorem normalizeNewlines_allWs (l : List Char) :
    (∀ c ∈ normalizeNewlinesChars l, isJsWhitespace c) ↔ (∀ c ∈ l, isJsWhitespace c) := by
  induction l using normalizeNewlinesChars.induct with
  | case1 => simp [normalizeNewlinesChars]
  | case2 => simp [normalizeNewlinesChars]; decide
  | case3 c hc =>
    simp [normalizeNewlinesChars, hc]
  | case4 rest ih =>
    have hnl : isJsWhitespace '\n' = true := by decide
    have hcr : isJsWhitespace '\r' = true := by decide
    simp only [List.mem_cons, forall_eq_or_imp] at ih
    simp [normalizeNewlinesChars, hnl, hcr, forall_eq_or_imp]
    simpa [hnl] using ih
  | case5 c2 rest hc2 ih =>
    have hnl : isJsWhitespace '\n' = true := by decide
    have hcr : isJsWhitespace '\r' = true := by decide
    simp only [List.mem_cons, forall_eq_or_imp] at ih
    simp [normalizeNewlinesChars, hc2, hnl, hcr, forall_eq_or_imp]
    simpa [hnl] using ih
  | case6 c c2 rest hc ih =>
    simp only [List.mem_cons, forall_eq_or_imp] at ih
    simp [normalizeNewlinesChars, hc, forall_eq_or_imp]
    intro _
    simpa using ih

theorem ascii_le_utf16 (l : List Char) : (l.filter isAsciiChar).length ≤ utf16Length l := by
  induction l with
  | nil => simp [utf16Length]
  | cons c rest ih =>
    have hstep : utf16Length (c :: rest) =
        (if c.toNat < 0x10000 then 1 else 2) + utf16Length rest := by
      simp [utf16Length]
    have hw : 1 ≤ (if c.toNat < 0x10000 then 1 else 2) := by split <;> norm_num
    by_cases h : isAsciiChar c
    · rw [List.filter_cons_of_pos h, List.length_cons, hstep]
      omega
    · rw [List.filter_cons_of_neg (by simpa using h), hstep]
      omega

theorem ceil_div_twenty (n : ℕ) : ⌈(n : ℚ) / 20⌉ = (((n + 19) / 20 : ℕ) : ℤ) := by
  have h20 : (0 : ℚ) < 20 := by norm_num
  set k : ℕ := (n + 19) / 20 with hk
  rw [Int.ceil_eq_iff]
  rw [Int.cast_natCast]
  constructor
  · rw [lt_div_iff₀ h20]
    have key : ((k : ℚ)) * 20 < (n : ℚ) + 20 := by
      exact_mod_cast (by omega : k * 20 < n + 20)
    linarith [key]
  · rw [div_le_iff₀ h20]
    have key : (n : ℚ) ≤ ((k : ℚ)) * 20 := by
      exact_mod_cast (by omega : n ≤ k * 20)
    linarith [key]

/-- Evaluation form of the token estimator: the rational arithmetic of the
definition, carried out exactly, equals integer arithmetic on the numerator
over the common denominator 20. -/
theorem estimateTextTokens_eq_scaled (s : String) :
    estimateTextTokens s =
      if s.data = [] then 0
      else if jsTrimChars (normalizeNewlinesChars s.data) = [] then 0
      else max 1 ((estimateScaled (jsTrimChars (normalizeNewlinesChars s.data)) + 19) / 20) := by
  by_cases h0 : s.data = []
  · simp [estimateTextTokens, h0]
  by_cases h1 : jsTrimChars (normalizeNewlinesChars s.data) = []
  · simp [estimateTextTokens, h0, h1]
  simp only [estimateTextTokens, if_neg h0, if_neg h1]
  have hau := ascii_le_utf16 (jsTrimChars (normalizeNewlinesChars s.data))
  set L := jsTrimChars (normalizeNewlinesChars s.data) with hL
  set a := (L.filter isAsciiChar).length with ha
  set u := utf16Length L with hu
  set w := countWhitespaceRuns L with hw
  set p := (L.filter isEstimatorPunct).length with hp
  have hsub : ((u - a : ℕ) : ℚ) = (u : ℚ) - (a : ℚ) := Nat.cast_sub hau
  have hcomb :
      (a : ℚ) / AVERAGE_ASCII_CHARS_PER_TOKEN + ((u : ℚ) - (a : ℚ)) * NON_ASCII_TOKEN_WEIGHT +
          (w : ℚ) * WHITESPACE_TOKEN_WEIGHT + (p : ℚ) * PUNCTUATION_TOKEN_WEIGHT =
        ((5 * a + 20 * (u - a) + 6 * w + 4 * p : ℕ) : ℚ) / 20 := by
    simp only [AVERAGE_ASCII_CHARS_PER_TOKEN, NON_ASCII_TOKEN_WEIGHT, WHITESPACE_TOKEN_WEIGHT,
      PUNCTUATION_TOKEN_WEIGHT]
    push_cast [hsub]
    ring
  rw [hcomb, ceil_div_twenty]
  simp only [estimateScaled, ← ha, ← hu, ← hw, ← hp]
  omega

/-- Claim C8: estimateTextTokens returns a non-negative integer for every input
string; it returns 0 exactly for empty or whitespace-only input and returns at
least 1 for any input containing a non-whitespace character. -/
theorem estimateTextTokens_range (s : String) :
    (0 : ℤ) ≤ (estimateTextTokens s : ℤ) ∧
    (estimateTextTokens s = 0 ↔ ∀ c ∈ s.data, isJsWhitespace c) ∧
    ((∃ c ∈ s.data, isJsWhitespace c = false) → 1 ≤ estimateTextTokens s) := by
  have hmain : estimateTextTokens s = 0 ↔ ∀ c ∈ s.data, isJsWhitespace c := by
    by_cases h0 : s.data = []
    · simp [estimateTextTokens, h0]
    · by_cases h1 : jsTrimChars (normalizeNewlinesChars s.data) = []
      · have hall : ∀ c ∈ s.data, isJsWhitespace c :=
          (normalizeNewlines_allWs s.data).mp ((jsTrimChars_eq_nil_iff _).mp h1)
        simp only [estimateTextTokens, if_neg h0]
        simpa [h1] using hall
      · have hne : estimateTextTokens s ≠ 0 := by
          simp only [estimateTextTokens, if_neg h0]
          simp only [if_neg h1]
          have h2 := le_max_left (1 : ℤ)
              ⌈((((jsTrimChars (normalizeNewlinesChars s.data)).filter isAsciiChar).length : ℚ)) /
                  AVERAGE_ASCII_CHARS_PER_TOKEN +
                ((utf16Length (jsTrimChars (normalizeNewlinesChars s.data)) : ℚ) -
                    (((jsTrimChars (normalizeNewlinesChars s.data)).filter isAsciiChar).length : ℚ)) *
                  NON_ASCII_TOKEN_WEIGHT +
                (countWhitespaceRuns (jsTrimChars (normalizeNewlinesChars s.data)) : ℚ) *
                  WHITESPACE_TOKEN_WEIGHT +
                (((jsTrimChars (normalizeNewlinesChars s.data)).filter isEstimatorPunct).length : ℚ) *
                  PUNCTUATION_TOKEN_WEIGHT⌉
          omega
        constructor
        · intro h
          exact absurd h hne
        · intro hall
          exact absurd
            ((jsTrimChars_eq_nil_iff _).mpr ((normalizeNewlines_allWs s.data).mpr hall)) h1
  refine ⟨Int.natCast_nonneg _, hmain, ?_⟩
  rintro ⟨c, hc, hw⟩
  have hne : estimateTextTokens s ≠ 0 := by
    intro h
    have := hmain.mp h c hc
    rw [hw] at this
    exact Bool.false_ne_true this
  omega

/-- Witness for estimateTextTokens_range at a concrete non-whitespace input. -/
theorem estimateTextTokens_range_witness :
    ((0 : ℤ) ≤ (estimateTextTokens "hi" : ℤ) ∧
      (estimateTextTokens "hi" = 0 ↔ ∀ c ∈ "hi".data, isJsWhitespace c)) ∧
    1 ≤ estimateTextTokens "hi" :=
  ⟨⟨(estimateTextTokens_range "hi").1, (estimateTextTokens_range "hi").2.1⟩,
    (estimateTextTokens_range "hi").2.2 ⟨'h', by decide, by decide⟩⟩

/-- Claim C6: the reply splitter cuts the scenario-D reply into exactly the
three expected sentence segments, and the persistence loop of
requestAssistantReply persists exactly those three contents in order. -/
theorem splitAssistantResponse_scenarioD :
    splitAssistantResponse "你好！今天天气不错。要出门吗？" =
        ["你好！", "今天天气不错。", "要出门吗？"] ∧
    persistAssistantSegments "你好！今天天气不错。要出门吗？" =
        ["你好！", "今天天气不错。", "要出门吗？"] := by
  constructor <;> rfl

/-- Claim C7: the effective limit of buildChatPayload is the explicit override
when supplied, else the contact's stored limit, else the default; non-finite
inputs resolve to the default 16000 and every finite input is clamped into the
interval from 500 to 128000. -/
theorem tokenLimit_resolution :
    (∀ args : BuildChatPayloadArgs,
        (buildChatPayload args).tokenLimit =
          resolveTokenLimit (jsNullish args.tokenLimit args.contact.tokenLimit)) ∧
    (∀ (v : JsNum) (c : Option JsNum), jsNullish (some v) c = some v) ∧
    (∀ c : Option JsNum, jsNullish none c = c) ∧
    resolveTokenLimit none = 16000 ∧
    resolveTokenLimit (some JsNum.nan) = 16000 ∧
    resolveTokenLimit (some JsNum.posInf) = 16000 ∧
    resolveTokenLimit (some JsNum.negInf) = 16000 ∧
    (∀ q : ℚ, 500 ≤ resolveTokenLimit (some (JsNum.finite q)) ∧
        resolveTokenLimit (some (JsNum.finite q)) ≤ 128000) := by
  refine ⟨fun args => rfl, fun v c => rfl, fun c => rfl, rfl, rfl, rfl, rfl, fun q => ?_⟩
  simp only [resolveTokenLimit, MAX_TOKEN_LIMIT, MIN_TOKEN_LIMIT]
  exact ⟨le_min (by norm_num) (le_max_left _ _), min_le_left _ _⟩

theorem selectLoop_eq_take (L : ℤ) (l : List Message) :
    ∀ (t : ℤ) (b : Bool), ∃ n, n ≤ l.length ∧ (selectLoop L t b l).1 = l.take n := by
  induction l with
  | nil =>
    intro t b
    exact ⟨0, by simp, by simp [selectLoop]⟩
  | cons m rest ih =>
    intro t b
    by_cases h : t + messageCost m > L
    · cases b
      · exact ⟨1, by simp, by simp [selectLoop, h]⟩
      · exact ⟨0, by simp, by simp [selectLoop, h]⟩
    · obtain ⟨n, hn, he⟩ := ih (t + messageCost m) true
      refine ⟨n + 1, by simpa using hn, ?_⟩
      simp [selectLoop, h, he]

theorem selectLoop_ne_nil (L t : ℤ) (l : List Message) (h : l ≠ []) :
    (selectLoop L t false l).1 ≠ [] := by
  cases l with
  | nil => exact absurd rfl h
  | cons m rest =>
    by_cases hgt : t + messageCost m > L
    · simp [selectLoop, hgt]
    · simp [selectLoop, hgt]

theorem selectLoop_force (L t : ℤ) (m : Message) (rest : List Message)
    (h : t + messageCost m > L) :
    selectLoop L t false (m :: rest) = ([m], t + messageCost m) := by
  simp [selectLoop, h]

theorem selectLoop_length_mono (L1 L2 : ℤ) (hL : L1 ≤ L2) (l : List Message) :
    ∀ (t : ℤ) (b : Bool),
      (selectLoop L1 t b l).1.length ≤ (selectLoop L2 t b l).1.length := by
  induction l with
  | nil =>
    intro t b
    simp [selectLoop]
  | cons m rest ih =>
    intro t b
    by_cases h2 : t + messageCost m > L2
    · have h1 : t + messageCost m > L1 := lt_of_le_of_lt hL h2
      cases b <;> simp [selectLoop, h1, h2]
    · by_cases h1 : t + messageCost m > L1
      · cases b <;> simp [selectLoop, h1, h2]
      · simpa [selectLoop, h1, h2] using ih (t + messageCost m) true

/-- Claim C1: for a non-empty history the payload always contains at least one
non-system message; when even the most recent message's cost added to the
system tokens exceeds the resolved limit, that message is force-included and
the reported total exceeds the limit. -/
theorem buildChatPayload_nonempty_forced (args : BuildChatPayloadArgs)
    (h : args.history ≠ []) :
    2 ≤ (buildChatPayload args).payloadMessages.length ∧
    (∀ hs m, args.history = hs ++ [m] →
      (buildChatPayload args).tokenLimit <
          systemTokensOf args.contact args.settings + messageCost m →
      (buildChatPayload args).payloadMessages =
        [{ role := MessageRole.system,
           content := buildSystemPromptContent args.contact args.settings },
         { role := m.role, content := m.content }] ∧
      (buildChatPayload args).tokenLimit < (buildChatPayload args).tokenCount) := by
  constructor
  · have hne :=
      selectLoop_ne_nil (resolveTokenLimit (jsNullish args.tokenLimit args.contact.tokenLimit))
        (systemTokensOf args.contact args.settings) args.history.reverse (by simpa using h)
    have hpos := List.length_pos.mpr hne
    simp only [buildChatPayload, List.length_cons, List.length_map, List.length_reverse]
    omega
  · intro hs m heq hcost
    have hrev : args.history.reverse = m :: hs.reverse := by
      rw [heq]
      simp
    have hforce :=
      selectLoop_force (resolveTokenLimit (jsNullish args.tokenLimit args.contact.tokenLimit))
        (systemTokensOf args.contact args.settings) m hs.reverse hcost
    constructor
    · simp [buildChatPayload, hrev, hforce]
    · simp only [buildChatPayload, hrev, hforce]
      exact hcost

set_option maxRecDepth 40000 in
/-- Witness for buildChatPayload_nonempty_forced: a single 520-character
message under the minimum limit 500 is force-included and the total exceeds
the limit. -/
theorem buildChatPayload_nonempty_forced_witness :
    2 ≤ (buildChatPayload argsW1).payloadMessages.length ∧
    ((buildChatPayload argsW1).payloadMessages =
        [{ role := MessageRole.system,
           content := buildSystemPromptContent argsW1.contact argsW1.settings },
         { role := msgBig.role, content := msgBig.content }] ∧
      (buildChatPayload argsW1).tokenLimit < (buildChatPayload argsW1).tokenCount) :=
  ⟨(buildChatPayload_nonempty_forced argsW1 (by decide)).1,
    (buildChatPayload_nonempty_forced argsW1 (by decide)).2 [] msgBig rfl
      (by simp only [systemTokensOf, messageCost, estimateTextTokens_eq_scaled]; decide)⟩

/-- Claim C2: the non-system part of the payload is the image of a contiguous
suffix of the input history, in chronological order. -/
theorem buildChatPayload_suffix (args : BuildChatPayloadArgs) :
    ∃ k, (buildChatPayload args).payloadMessages =
      { role := MessageRole.system,
        content := buildSystemPromptContent args.contact args.settings } ::
        (args.history.drop k).map
          (fun m => { role := m.role, content := m.content }) := by
  obtain ⟨n, hn, he⟩ :=
    selectLoop_eq_take (resolveTokenLimit (jsNullish args.tokenLimit args.contact.tokenLimit))
      args.history.reverse (systemTokensOf args.contact args.settings) false
  refine ⟨args.history.length - n, ?_⟩
  have h2 :
      (selectLoop (resolveTokenLimit (jsNullish args.tokenLimit args.contact.tokenLimit))
          (systemTokensOf args.contact args.settings) false args.history.reverse).1.reverse =
        args.history.drop (args.history.length - n) := by
    rw [he, List.take_reverse, List.reverse_reverse]
  simp [buildChatPayload, h2]

/-- Claim C3: for a fixed contact, settings and history, a larger resolved
limit never selects fewer history messages. -/
theorem buildChatPayload_count_monotone (contact : Contact)
    (settings : PromptSettingsSnapshot) (history : List Message) (t1 t2 : Option JsNum)
    (h : resolveTokenLimit (jsNullish t1 contact.tokenLimit) ≤
          resolveTokenLimit (jsNullish t2 contact.tokenLimit)) :
    (buildChatPayload
        { contact := contact, settings := settings, history := history,
          tokenLimit := t1 }).payloadMessages.length ≤
    (buildChatPayload
        { contact := contact, settings := settings, history := history,
          tokenLimit := t2 }).payloadMessages.length := by
  have hmono :=
    selectLoop_length_mono _ _ h history.reverse (systemTokensOf contact settings) false
  simp only [buildChatPayload, List.length_cons, List.length_map, List.length_reverse]
  omega

/-- Witness for buildChatPayload_count_monotone at two concrete limits. -/
theorem buildChatPayload_count_monotone_witness :
    (buildChatPayload
        { contact := contactW, settings := settingsW, history := [msgSmall],
          tokenLimit := some (JsNum.finite 600) }).payloadMessages.length ≤
    (buildChatPayload
        { contact := contactW, settings := settingsW, history := [msgSmall],
          tokenLimit := some (JsNum.finite 1000) }).payloadMessages.length :=
  buildChatPayload_count_monotone contactW settingsW [msgSmall]
    (some (JsNum.finite 600)) (some (JsNum.finite 1000)) (by decide)

/-- Counterexample to claim C4: in the concrete createContact run starting
from the empty database, the state after the first insert is a committed
state containing the new Contact while no Thread exists at all, so the
contact+thread creation is not atomic. -/
theorem createContact_atomicity_cex :
    sMidCex ∈ commitStates db0 (createContactActions contactCex threadCex) ∧
    (∃ c ∈ sMidCex.contacts, c.id = contactCex.id) ∧
    sMidCex.threads = [] := by
  refine ⟨?_, ⟨contactCex, by simp [sMidCex], rfl⟩, rfl⟩
  have h : commitStates db0 (createContactActions contactCex threadCex) =
      [db0, sMidCex,
        { contacts := [contactCex], threads := [threadCex], messages := [] }] := by
    simp [commitStates, applyAction, applyOp, createContactActions, db0, sMidCex]
  rw [h]
  simp

/-- Claim C4 (amended): createContact issues the contact insert and the thread
insert as two separate committed writes with no enclosing transaction; the
intermediate committed state holds the new Contact with no Thread for it when
none pre-existed, and only the final state holds both records. -/
theorem createContact_separate_commits (s0 : DB) (contact : Contact) (thread : Thread)
    (name avatarColor prompt : String) (avatarIcon avatarUrl worldBook : Option String)
    (id1 id2 randomIcon : String) (now1 now2 : ℤ)
    (_hc : contact =
      createContactRecord name avatarColor avatarIcon avatarUrl prompt worldBook id1
        randomIcon now1)
    (_ht : thread = createContactThread contact id2 now2)
    (hfresh : ∀ t ∈ s0.threads, t.contactId ≠ contact.id) :
    commitStates s0 (createContactActions contact thread) =
      [s0, { s0 with contacts := s0.contacts ++ [contact] },
        { s0 with contacts := s0.contacts ++ [contact],
                  threads := s0.threads ++ [thread] }] ∧
    contact ∈ ({ s0 with contacts := s0.contacts ++ [contact] } : DB).contacts ∧
    (∀ t ∈ ({ s0 with contacts := s0.contacts ++ [contact] } : DB).threads,
        t.contactId ≠ contact.id) ∧
    contact ∈ (applyActions s0 (createContactActions contact thread)).contacts ∧
    thread ∈ (applyActions s0 (createContactActions contact thread)).threads := by
  refine ⟨?_, by simp, by simpa using hfresh, ?_, ?_⟩
  · simp [commitStates, applyAction, applyOp, createContactActions]
  · simp [applyActions, applyAction, applyOp, createContactActions]
  · simp [applyActions, applyAction, applyOp, createContactActions]

/-- Witness for createContact_separate_commits on the concrete run from the
empty database. -/
theorem createContact_separate_commits_witness :
    commitStates db0 (createContactActions contactCex threadCex) =
      [db0, { db0 with contacts := db0.contacts ++ [contactCex] },
        { db0 with contacts := db0.contacts ++ [contactCex],
                   threads := db0.threads ++ [threadCex] }] ∧
    contactCex ∈ ({ db0 with contacts := db0.contacts ++ [contactCex] } : DB).contacts ∧
    (∀ t ∈ ({ db0 with contacts := db0.contacts ++ [contactCex] } : DB).threads,
        t.contactId ≠ contactCex.id) ∧
    contactCex ∈ (applyActions db0 (createContactActions contactCex threadCex)).contacts ∧
    threadCex ∈ (applyActions db0 (createContactActions contactCex threadCex)).threads :=
  createContact_separate_commits db0 contactCex threadCex "Aria" "#38bdf8" "cheerful"
    none none none "c1" "t1" "Sparkles" 0 0 rfl rfl (by simp [db0])

/-- Claim C5: deleteContact commits exactly one transaction (one new committed
state), after which no contact with the deleted id, no thread of that contact,
and no message belonging to any of the contact's pre-state threads remain. -/
theorem deleteContact_atomic_cascade (s : DB) (cid : String) :
    commitStates s (deleteContactActions s cid) =
      [s, applyActions s (deleteContactActions s cid)] ∧
    (∀ c ∈ (applyActions s (deleteContactActions s cid)).contacts, c.id ≠ cid) ∧
    (∀ t ∈ (applyActions s (deleteContactActions s cid)).threads, t.contactId ≠ cid) ∧
    (∀ m ∈ (applyActions s (deleteContactActions s cid)).messages,
        m.threadId ∉ contactThreadIds s cid) := by
  refine ⟨by simp [commitStates, applyActions, deleteContactActions, applyAction], ?_, ?_, ?_⟩
  · intro c hc
    simp only [applyActions, deleteContactActions, applyAction, List.foldl, applyOp] at hc
    simpa using (List.mem_filter.mp hc).2
  · intro t htm
    simp only [applyActions, deleteContactActions, applyAction, List.foldl, applyOp] at htm
    simpa using (List.mem_filter.mp htm).2
  · intro m hm
    simp only [applyActions, deleteContactActions, applyAction, List.foldl, applyOp] at hm
    simpa using (List.mem_filter.mp hm).2

/-- Witness for deleteContact_atomic_cascade on a concrete populated
database. -/
theorem deleteContact_atomic_cascade_witness :
    commitStates dbC5 (deleteContactActions dbC5 "c1") =
      [dbC5, applyActions dbC5 (deleteContactActions dbC5 "c1")] ∧
    (∀ c ∈ (applyActions dbC5 (deleteContactActions dbC5 "c1")).contacts, c.id ≠ "c1") ∧
    (∀ t ∈ (applyActions dbC5 (deleteContactActions dbC5 "c1")).threads,
        t.contactId ≠ "c1") ∧
    (∀ m ∈ (applyActions dbC5 (deleteContactActions dbC5 "c1")).messages,
        m.threadId ∉ contactThreadIds dbC5 "c1") :=
  deleteContact_atomic_cascade dbC5 "c1"

theorem find?_map_updateThread (l : List Thread) (tid : String) (v : ℤ) (t0 : Thread)
    (h : l.find? (fun t => decide (t.id = tid)) = some t0) :
    (l.map (fun t => if t.id = tid then { t with updatedAt := v } else t)).find?
        (fun t => decide (t.id = tid)) = some { t0 with updatedAt := v } := by
  induction l with
  | nil => simp at h
  | cons a rest ih =>
    by_cases ha : a.id = tid
    · have hd : decide (a.id = tid) = true := by simpa using ha
      simp only [List.find?, hd] at h
      cases h
      simp only [List.map_cons, if_pos ha, List.find?, hd]
    · have hd : decide (a.id = tid) = false := by simpa using ha
      simp only [List.find?, hd] at h
      simp only [List.map_cons, if_neg ha, List.find?, hd]
      exact ih h

/-- Claim C9: saveMessage, deleteMessageById and updateMessageContent each set
the owning thread's updatedAt (to the message's creation time for a save, to
the current clock reading for a delete or an edit); under a monotone clock the
new value is at least the previous one. -/
theorem thread_timestamp_bump :
    (∀ (s : DB) (message : Message) (t0 : Thread),
        findThread s message.threadId = some t0 →
        t0.updatedAt ≤ message.createdAt →
        findThread (applyActions s (saveMessageActions message)) message.threadId =
            some { t0 with updatedAt := message.createdAt } ∧
        t0.updatedAt ≤ ({ t0 with updatedAt := message.createdAt } : Thread).updatedAt) ∧
    (∀ (s : DB) (messageId : Nat) (now : ℤ) (message : Message) (t0 : Thread),
        findMessage s messageId = some message →
        findThread s message.threadId = some t0 →
        t0.updatedAt ≤ now →
        findThread (applyActions s (deleteMessageByIdActions s messageId now))
            message.threadId = some { t0 with updatedAt := now } ∧
        t0.updatedAt ≤ ({ t0 with updatedAt := now } : Thread).updatedAt) ∧
    (∀ (s : DB) (messageId : Nat) (content : String) (now : ℤ) (message : Message)
        (t0 : Thread),
        findMessage s messageId = some message →
        findThread s message.threadId = some t0 →
        t0.updatedAt ≤ now →
        findThread (applyActions s (updateMessageContentActions s messageId content now))
            message.threadId = some { t0 with updatedAt := now } ∧
        t0.updatedAt ≤ ({ t0 with updatedAt := now } : Thread).updatedAt) := by
  refine ⟨?_, ?_, ?_⟩
  · intro s message t0 hfind hle
    refine ⟨?_, by simpa using hle⟩
    simp only [applyActions, saveMessageActions, List.foldl, applyAction, applyOp]
    simp only [findThread] at hfind ⊢
    exact find?_map_updateThread _ _ _ _ hfind
  · intro s messageId now message t0 hmsg hfind hle
    refine ⟨?_, by simpa using hle⟩
    simp only [deleteMessageByIdActions, hmsg]
    simp only [applyActions, List.foldl, applyAction, applyOp]
    simp only [findThread] at hfind ⊢
    exact find?_map_updateThread _ _ _ _ hfind
  · intro s messageId content now message t0 hmsg hfind hle
    refine ⟨?_, by simpa using hle⟩
    simp only [updateMessageContentActions, hmsg]
    simp only [applyActions, List.foldl, applyAction, applyOp]
    simp only [findThread] at hfind ⊢
    exact find?_map_updateThread _ _ _ _ hfind

/-- Witness for thread_timestamp_bump on a concrete one-thread database. -/
theorem thread_timestamp_bump_witness :
    (findThread (applyActions dbW (saveMessageActions msgSmall)) msgSmall.threadId =
        some { threadW with updatedAt := msgSmall.createdAt } ∧
      threadW.updatedAt ≤
        ({ threadW with updatedAt := msgSmall.createdAt } : Thread).updatedAt) ∧
    (findThread (applyActions dbW (deleteMessageByIdActions dbW 1 7)) msgSmall.threadId =
        some { threadW with updatedAt := 7 } ∧
      threadW.updatedAt ≤ ({ threadW with updatedAt := (7 : ℤ) } : Thread).updatedAt) ∧
    (findThread (applyActions dbW (updateMessageContentActions dbW 1 "edited" 7))
        msgSmall.threadId = some { threadW with updatedAt := 7 } ∧
      threadW.updatedAt ≤ ({ threadW with updatedAt := (7 : ℤ) } : Thread).updatedAt) :=
  ⟨thread_timestamp_bump.1 dbW msgSmall threadW (by decide) (by decide),
   thread_timestamp_bump.2.1 dbW 1 7 msgSmall threadW (by decide) (by decide) (by decide),
   thread_timestamp_bump.2.2 dbW 1 "edited" 7 msgSmall threadW (by decide) (by decide)
     (by decide)⟩

theorem replaceCRLF_no_lf (l : List Char) (h : '\n' ∉ l) :
    replaceCRLFChars l = l := by
  induction l using replaceCRLFChars.induct with
  | case1 => rfl
  | case2 c => rfl
  | case3 c c2 rest hif ih =>
    exact absurd (by simp [hif.2]) h
  | case4 c c2 rest hif ih =>
    have hm : '\n' ∉ c2 :: rest := fun hm => h (by simp [hm])
    simp [replaceCRLFChars, hif, ih hm]

theorem splitNewlineRuns_no_lf (l : List Char) (h : '\n' ∉ l) : splitNewlineRuns l = [l] := by
  induction l with
  | nil => rfl
  | cons c rest ih =>
    have hc : ¬c = '\n' := fun he => h (by simp [he])
    have hrest : '\n' ∉ rest := fun hm => h (by simp [hm])
    cases rest with
    | nil => simp [splitNewlineRuns, hc]
    | cons c2 rest2 =>
      simp [splitNewlineRuns, hc, ih hrest]

theorem sentenceMatchesAux_no_term (l : List Char)
    (h : ∀ c ∈ l, isSentenceTerminator c = false) :
    ∀ bodyRev : List Char,
      sentenceMatchesAux bodyRev l =
        if bodyRev = [] ∧ l = [] then [] else [bodyRev.reverse ++ l] := by
  induction l with
  | nil =>
    intro bodyRev
    by_cases hb : bodyRev = [] <;> simp [sentenceMatchesAux, hb]
  | cons c rest ih =>
    intro bodyRev
    have hc := h c (by simp)
    have hrest : ∀ x ∈ rest, isSentenceTerminator x = false := fun x hx => h x (by simp [hx])
    simp only [sentenceMatchesAux, hc, Bool.false_eq_true, if_false]
    rw [ih hrest (c :: bodyRev)]
    simp [List.append_assoc]

theorem dropWhile_eq_self_of_head_false {α : Type} (p : α → Bool) (l : List α)
    (h : ∀ w : l ≠ [], p (l.head w) = false) : l.dropWhile p = l := by
  cases l with
  | nil => rfl
  | cons a t =>
    have ha := h (by simp)
    simp only [List.head_cons] at ha
    simp [List.dropWhile_cons, ha]

theorem dropWhile_idem {α : Type} (p : α → Bool) (l : List α) :
    (l.dropWhile p).dropWhile p = l.dropWhile p :=
  dropWhile_eq_self_of_head_false p _ (fun w => List.head_dropWhile_not p l w)

theorem jsTrimChars_head_false (l : List Char) (w : jsTrimChars l ≠ []) :
    isJsWhitespace ((jsTrimChars l).head w) = false := by
  obtain ⟨pre, hpre⟩ :=
    (List.dropWhile_suffix isJsWhitespace :
      (l.dropWhile isJsWhitespace).reverse.dropWhile isJsWhitespace <:+
        (l.dropWhile isJsWhitespace).reverse)
  have hA : l.dropWhile isJsWhitespace = jsTrimChars l ++ pre.reverse := by
    have h2 := congrArg List.reverse hpre
    simpa [jsTrimChars, List.reverse_append] using h2.symm
  have hAne : l.dropWhile isJsWhitespace ≠ [] := by
    rw [hA]
    intro hcontra
    exact w (List.append_eq_nil.mp hcontra).1
  have hfin := List.head_dropWhile_not isJsWhitespace l hAne
  have h1 : (l.dropWhile isJsWhitespace).head? = some ((jsTrimChars l).head w) := by
    rw [hA, List.head?_append, List.head?_eq_head w]
    rfl
  have h2 := List.head?_eq_head hAne
  rw [h1] at h2
  rw [Option.some.inj h2]
  exact hfin

theorem jsTrimChars_idem (l : List Char) : jsTrimChars (jsTrimChars l) = jsTrimChars l := by
  have hdrop : (jsTrimChars l).dropWhile isJsWhitespace = jsTrimChars l :=
    dropWhile_eq_self_of_head_false _ _ (fun w2 => jsTrimChars_head_false l w2)
  have hrev : (jsTrimChars l).reverse.dropWhile isJsWhitespace = (jsTrimChars l).reverse := by
    have h2 : (jsTrimChars l).reverse =
        (l.dropWhile isJsWhitespace).reverse.dropWhile isJsWhitespace := by
      simp [jsTrimChars]
    rw [h2]
    exact dropWhile_idem _ _
  calc jsTrimChars (jsTrimChars l)
      = (((jsTrimChars l).dropWhile isJsWhitespace).reverse.dropWhile
          isJsWhitespace).reverse := rfl
    _ = ((jsTrimChars l).reverse.dropWhile isJsWhitespace).reverse := by rw [hdrop]
    _ = (jsTrimChars l).reverse.reverse := by rw [hrev]
    _ = jsTrimChars l := List.reverse_reverse _

theorem mem_of_mem_jsTrimChars {c : Char} {l : List Char} (h : c ∈ jsTrimChars l) : c ∈ l := by
  simp only [jsTrimChars, List.mem_reverse] at h
  have h2 := (List.dropWhile_sublist isJsWhitespace).subset h
  rw [List.mem_reverse] at h2
  exact (List.dropWhile_sublist isJsWhitespace).subset h2

/-- Claim C10: the splitter's only boundaries are the terminator characters
and newline runs: the ASCII period is not a terminator, any reply containing
no newline and no terminator character (for example sentences separated only
by ASCII periods) comes back as the single trimmed whole text, and every
returned segment is non-empty after trimming. -/
theorem splitAssistantResponse_terminators :
    isSentenceTerminator '.' = false ∧
    (∀ content : String,
        (∀ c ∈ content.data, c ≠ '\n' ∧ isSentenceTerminator c = false) →
        jsTrimChars content.data ≠ [] →
        splitAssistantResponse content = [jsTrim content]) ∧
    (∀ (content seg : String), seg ∈ splitAssistantResponse content →
        jsTrim seg ≠ "") := by
  refine ⟨by decide, ?_, ?_⟩
  · intro content hno htrim
    have hnolf : '\n' ∉ content.data := fun hm => (hno _ hm).1 rfl
    have hrepl : replaceCRLFChars content.data = content.data := replaceCRLF_no_lf _ hnolf
    have hNne : jsTrimChars content.data ≠ [] := htrim
    have hNsub : ∀ c ∈ jsTrimChars content.data, c ∈ content.data := fun c hc =>
      mem_of_mem_jsTrimChars hc
    have hNnolf : '\n' ∉ jsTrimChars content.data := fun hm => hnolf (hNsub _ hm)
    have hNnoterm : ∀ c ∈ jsTrimChars content.data, isSentenceTerminator c = false :=
      fun c hc => (hno c (hNsub c hc)).2
    have hsplit := splitNewlineRuns_no_lf _ hNnolf
    have hidem := jsTrimChars_idem content.data
    have hms : sentenceMatches (jsTrimChars content.data) = [jsTrimChars content.data] := by
      unfold sentenceMatches
      rw [sentenceMatchesAux_no_term _ hNnoterm []]
      simp [hNne]
    have hlen : ¬(jsTrimChars content.data).length = 0 := by
      simpa [List.length_eq_zero] using hNne
    simp only [splitAssistantResponse, hrepl, if_neg hlen, hsplit, List.map_cons,
      List.map_nil, hidem, hms]
    simp [jsTrim, hidem, hms, Nat.pos_of_ne_zero hlen, hNne]
  · intro content seg hseg
    simp only [splitAssistantResponse] at hseg
    by_cases h0 : (jsTrimChars (replaceCRLFChars content.data)).length = 0
    · rw [if_pos h0] at hseg
      simp at hseg
    · rw [if_neg h0] at hseg
      obtain ⟨t, ht, rfl⟩ := List.mem_map.mp hseg
      obtain ⟨paragraph, hp, htp⟩ := List.mem_flatMap.mp ht
      obtain ⟨hp1, hp2⟩ := List.mem_filter.mp hp
      obtain ⟨q, _hq, hqe⟩ := List.mem_map.mp hp1
      have hp2' : paragraph ≠ [] := by simpa using hp2
      have hpidem : jsTrimChars paragraph = paragraph := by
        rw [← hqe]
        exact jsTrimChars_idem q
      have hgoal : ∀ u : List Char, jsTrimChars u = u → u ≠ [] →
          jsTrim (String.mk u) ≠ "" := by
        intro u hu hune hc
        have hdata := congrArg String.data hc
        simp only [jsTrim] at hdata
        exact hune (by simpa [hu] using hdata)
      by_cases hms : sentenceMatches paragraph ≠ []
      · rw [if_pos hms] at htp
        obtain ⟨ht1, ht2⟩ := List.mem_filter.mp htp
        obtain ⟨m, _hm, hme⟩ := List.mem_map.mp ht1
        have htne : t ≠ [] := by
          intro hc
          rw [hc] at ht2
          simp at ht2
        have htidem : jsTrimChars t = t := by
          rw [← hme]
          exact jsTrimChars_idem m
        exact hgoal t htidem htne
      · rw [if_neg hms] at htp
        have hplen : paragraph.length > 0 := List.length_pos.mpr hp2'
        rw [if_pos hplen] at htp
        have hte : t = paragraph := by simpa using htp
        subst hte
        exact hgoal t hpidem hp2'

/-- Witness for splitAssistantResponse_terminators on a concrete reply whose
sentences are separated only by ASCII periods. -/
theorem splitAssistantResponse_terminators_witness :
    splitAssistantResponse "Hello. World." = [jsTrim "Hello. World."] ∧
    jsTrim "Hello. World." ≠ "" :=
  ⟨splitAssistantResponse_terminators.2.1 "Hello. World." (by decide) (by decide),
    splitAssistantResponse_terminators.2.2 "Hello. World." (jsTrim "Hello. World.")
      (by rw [splitAssistantResponse_terminators.2.1 "Hello. World." (by decide) (by decide)]
          simp)⟩

end ChromaChat
